import Mathlib

/-!
Verification of the EurekaLabsAI/tensor specification against the code.

The repository ships the Python binding layer (`tensor1d.py`, `tensor2d.py`)
and its tests; the C engine (`tensor1d.c` / `tensor2d.c`) referenced through
cffi is not part of the source tree here, so the engine-level operations
(storage, index translation, slicing, arithmetic, reference counting) are
modelled from the specification's own operation contracts (§3, §4), while the
Python-level dispatch (`__getitem__`, `__setitem__`, `__add__`, `__mul__`,
`__init__`, `tolist`, shape attribute) is embedded directly from the Python
source.  Cell values are modelled as exact rationals; float32 rounding is
abstracted away.
-/

/-- Python exception kinds distinguished by the binding layer. -/
inductive Err where
  | typeError
  | valueError
  | indexError
  deriving DecidableEq, Repr

/-- Modelled from the spec: the 1-D tensor record of the missing `tensor1d.c`
(§3): an offset, a logical size and a stride over a shared Storage.  The
storage buffer itself is passed separately as a `List ℚ`. -/
structure Tensor1 where
  offset : Int
  size : Nat
  stride : Int
  deriving DecidableEq, Repr

/-- Modelled from the spec: the 1-D index translator (§4.2):
`physical(t, i) = t.offset + i * t.stride`, no bounds check. -/
def physical1 (t : Tensor1) (i : Int) : Int :=
  t.offset + i * t.stride

/-- Modelled from the spec: negative-index normalization used by callers
(§4.2, §4.3): `i' = i + size` when `i < 0`. -/
def normIdx (size : Nat) (i : Int) : Int :=
  if i < 0 then i + size else i

/-- Modelled from the spec: `tensor_getitem` of the missing `tensor1d.c`
(§4.3 `get`): normalize a negative index by adding the size, fail with
IndexError if still out of `[0, size)`, otherwise read the storage cell at
the translated physical offset. -/
def tensor_getitem (buf : List ℚ) (t : Tensor1) (i : Int) : Except Err ℚ :=
  let j := normIdx t.size i
  if 0 ≤ j ∧ j < (t.size : Int) then
    .ok (buf.getD (physical1 t j).toNat 0)
  else
    .error .indexError

/-- Modelled from the spec: `tensor_setitem` of the missing `tensor1d.c`
(§4.3 `set`): same normalization and bounds rule as `get`; writes through to
the shared storage buffer. -/
def tensor_setitem (buf : List ℚ) (t : Tensor1) (i : Int) (v : ℚ) :
    Except Err (List ℚ) :=
  let j := normIdx t.size i
  if 0 ≤ j ∧ j < (t.size : Int) then
    .ok (buf.set (physical1 t j).toNat v)
  else
    .error .indexError

/-- Modelled from the spec: ceiling division on integers (the `ceil((stop -
start) / step)` of §4.4), defined for a nonzero divisor. -/
def ceilDivInt (a b : Int) : Int :=
  if 0 < b then (a + b - 1) / b else (-a + (-b) - 1) / (-b)

/-- Modelled from the spec: clamping a (already normalized) slice bound into
`[0, size]` (§4.4 step 2). -/
def clampIdx (size : Nat) (c : Int) : Int :=
  max 0 (min c (size : Int))

/-- Modelled from the spec: `tensor_slice` of the missing `tensor1d.c`
(§4.4): normalize negative bounds, clamp into `[0, size]`, reject a zero
step with ValueError, and build the new view metadata
`(offset + start*stride, max 0 (ceil((stop-start)/step)), stride*step)`. -/
def tensor_slice (t : Tensor1) (start stop step : Int) : Except Err Tensor1 :=
  if step = 0 then .error .valueError
  else
    let s := clampIdx t.size (normIdx t.size start)
    let e := clampIdx t.size (normIdx t.size stop)
    let nsize := max 0 (ceilDivInt (e - s) step)
    .ok ⟨t.offset + s * t.stride, nsize.toNat, t.stride * step⟩

/-- Modelled from the spec: the storage buffer produced by `tensor_arange n`
(§4.3): `n` cells holding `0 .. n-1`. -/
def arangeBuf (n : Nat) : List ℚ :=
  (List.range n).map (fun i : Nat => (i : ℚ))

/-- Modelled from the spec: the tensor record produced by `tensor_arange n`
(§4.3): offset 0, size `n`, unit stride. -/
def arangeT (n : Nat) : Tensor1 :=
  ⟨0, n, 1⟩

/-- From `tensor1d.py` `__getitem__` (slice branch): defaults `start = 0`,
`stop = self.tensor.size`, `step = 1` for missing slice components, then the
engine slicer is called. -/
def getitem_slice (t : Tensor1) (start stop step : Option Int) :
    Except Err Tensor1 :=
  tensor_slice t (start.getD 0) (stop.getD (t.size : Int)) (step.getD 1)

/-- Modelled from the spec: the 2-D tensor record of the missing
`tensor2d.c` (§3): offset pair, `size = nrows*ncols`, row/column counts and
stride pair over a shared Storage. -/
structure Tensor2 where
  offset : Int × Int
  size : Nat
  nrows : Nat
  ncols : Nat
  stride : Int × Int
  deriving DecidableEq, Repr

/-- Modelled from the spec: the 2-D index translator (§4.2):
`physical(t, r, c) = row_offset + r*row_stride + col_offset + c*col_stride`. -/
def physical2 (t : Tensor2) (r c : Int) : Int :=
  t.offset.1 + r * t.stride.1 + t.offset.2 + c * t.stride.2

/-- Modelled from the spec: `tensor_slice` of the missing `tensor2d.c`
(§4.4, per axis): normalize and clamp each axis bound, reject a zero step
with ValueError, and build the new per-axis offset/size/stride. -/
def tensor_slice2 (t : Tensor2)
    (rstart rstop rstep cstart cstop cstep : Int) : Except Err Tensor2 :=
  if rstep = 0 ∨ cstep = 0 then .error .valueError
  else
    let rs := clampIdx t.nrows (normIdx t.nrows rstart)
    let re := clampIdx t.nrows (normIdx t.nrows rstop)
    let cs := clampIdx t.ncols (normIdx t.ncols cstart)
    let ce := clampIdx t.ncols (normIdx t.ncols cstop)
    let nr := (max 0 (ceilDivInt (re - rs) rstep)).toNat
    let nc := (max 0 (ceilDivInt (ce - cs) cstep)).toNat
    .ok ⟨(t.offset.1 + rs * t.stride.1, t.offset.2 + cs * t.stride.2),
         nr * nc, nr, nc, (t.stride.1 * rstep, t.stride.2 * cstep)⟩

/-- From `tensor2d.py` `__getitem__` (slice branch): per-axis defaults
`start = 0`, `stop = nrows`/`ncols`, `step = 1`, then the engine slicer. -/
def getitem_slice2 (t : Tensor2) (rstart rstop rstep cstart cstop cstep : Option Int) :
    Except Err Tensor2 :=
  tensor_slice2 t (rstart.getD 0) (rstop.getD (t.nrows : Int)) (rstep.getD 1)
    (cstart.getD 0) (cstop.getD (t.ncols : Int)) (cstep.getD 1)

theorem clampIdx_nonneg (n : Nat) (c : Int) : 0 ≤ clampIdx n c :=
  le_max_left 0 _

theorem clampIdx_le (n : Nat) (c : Int) : clampIdx n c ≤ (n : Int) :=
  max_le (Int.ofNat_nonneg n) (min_le_right c n)

theorem normIdx_clampIdx (n : Nat) (c : Int) :
    normIdx n (clampIdx n c) = clampIdx n c := by
  unfold normIdx
  exact if_neg (not_lt.2 (clampIdx_nonneg n c))

theorem clampIdx_idem (n : Nat) (c : Int) :
    clampIdx n (clampIdx n c) = clampIdx n c := by
  unfold clampIdx
  omega

theorem ceilDivInt_zero (b : Int) (hb : b ≠ 0) : ceilDivInt 0 b = 0 := by
  unfold ceilDivInt
  split
  · exact Int.ediv_eq_zero_of_lt (by omega) (by omega)
  · exact Int.ediv_eq_zero_of_lt (by omega) (by omega)

/-- C1: a write through one view is visible through every other view
aliasing the same storage cell: if index `i` is valid for view `v`, index
`j` is valid for tensor `t`, and the two translate to the same physical
cell of the shared buffer, then `set` through `v` succeeds and a subsequent
`get` through `t` returns the written value. -/
theorem set_through_view_visible_through_alias
    (buf : List ℚ) (v t : Tensor1) (i j : Int) (val : ℚ)
    (hi : 0 ≤ normIdx v.size i ∧ normIdx v.size i < (v.size : Int))
    (hj : 0 ≤ normIdx t.size j ∧ normIdx t.size j < (t.size : Int))
    (halias : physical1 v (normIdx v.size i) = physical1 t (normIdx t.size j))
    (hbound : (physical1 t (normIdx t.size j)).toNat < buf.length) :
    ∃ buf', tensor_setitem buf v i val = .ok buf' ∧
      tensor_getitem buf' t j = .ok val := by
  refine ⟨buf.set (physical1 v (normIdx v.size i)).toNat val, ?_, ?_⟩
  · simp [tensor_setitem, hi]
  · simp only [tensor_getitem, hj, and_self, if_pos, halias]
    have hlen : (physical1 t (normIdx t.size j)).toNat <
        (buf.set (physical1 t (normIdx t.size j)).toNat val).length := by
      simpa using hbound
    rw [List.getD_eq_getElem?_getD, List.getElem?_set_self (by simpa using hbound)]
    rfl

/-- C1 witness: the concrete scenario of the spec — `t = arange 20`,
`v = t.slice(5, 15, 1)` (which the slicer evaluates to offset 5, size 10,
stride 1), `v.set(0, 100)` makes `t.get(5) == 100`. -/
theorem set_through_view_visible_through_alias_witness :
    tensor_slice (arangeT 20) 5 15 1 = .ok ⟨5, 10, 1⟩ ∧
    ∃ buf', tensor_setitem (arangeBuf 20) ⟨5, 10, 1⟩ 0 100 = .ok buf' ∧
      tensor_getitem buf' (arangeT 20) 5 = .ok 100 :=
  ⟨by rfl,
   set_through_view_visible_through_alias (arangeBuf 20) ⟨5, 10, 1⟩
     (arangeT 20) 0 5 100 (by decide) (by decide) (by decide) (by decide)⟩

/-- C3: for every tensor and every slice request with a nonzero step, the
slicer succeeds (out-of-range bounds never raise), the result is the same
as slicing with the bounds normalized and clamped into `[0, size]`, the
clamped bounds do lie in `[0, size]`, and slicing an empty tensor yields an
empty view; the same holds per axis for the 2-D engine. -/
theorem slice_clamps_bounds_never_raises :
    (∀ (t : Tensor1) (start stop step : Int), step ≠ 0 →
      ∃ u, tensor_slice t start stop step = .ok u ∧
        tensor_slice t (clampIdx t.size (normIdx t.size start))
          (clampIdx t.size (normIdx t.size stop)) step = .ok u ∧
        0 ≤ clampIdx t.size (normIdx t.size start) ∧
        clampIdx t.size (normIdx t.size start) ≤ (t.size : Int) ∧
        0 ≤ clampIdx t.size (normIdx t.size stop) ∧
        clampIdx t.size (normIdx t.size stop) ≤ (t.size : Int) ∧
        (t.size = 0 → u.size = 0)) ∧
    (∀ (t : Tensor2) (rstart rstop rstep cstart cstop cstep : Int),
      rstep ≠ 0 → cstep ≠ 0 →
      ∃ u, tensor_slice2 t rstart rstop rstep cstart cstop cstep = .ok u ∧
        tensor_slice2 t (clampIdx t.nrows (normIdx t.nrows rstart))
          (clampIdx t.nrows (normIdx t.nrows rstop)) rstep
          (clampIdx t.ncols (normIdx t.ncols cstart))
          (clampIdx t.ncols (normIdx t.ncols cstop)) cstep = .ok u ∧
        (t.nrows = 0 → u.nrows = 0) ∧ (t.ncols = 0 → u.ncols = 0)) := by
  constructor
  · intro t start stop step hstep
    have hs0 := clampIdx_nonneg t.size (normIdx t.size start)
    have hs1 := clampIdx_le t.size (normIdx t.size start)
    have he0 := clampIdx_nonneg t.size (normIdx t.size stop)
    have he1 := clampIdx_le t.size (normIdx t.size stop)
    simp only [tensor_slice, if_neg hstep, normIdx_clampIdx, clampIdx_idem]
    refine ⟨_, rfl, rfl, hs0, hs1, he0, he1, ?_⟩
    intro h0
    have hs : clampIdx t.size (normIdx t.size start) = 0 := by omega
    have he : clampIdx t.size (normIdx t.size stop) = 0 := by omega
    simp only [hs, he, sub_self, ceilDivInt_zero step hstep]
    rfl
  · intro t rstart rstop rstep cstart cstop cstep hr hc
    have hne : ¬(rstep = 0 ∨ cstep = 0) := by tauto
    simp only [tensor_slice2, if_neg hne, normIdx_clampIdx, clampIdx_idem]
    refine ⟨_, rfl, rfl, ?_, ?_⟩
    · intro h0
      have hs : clampIdx t.nrows (normIdx t.nrows rstart) = 0 := by
        have := clampIdx_nonneg t.nrows (normIdx t.nrows rstart)
        have := clampIdx_le t.nrows (normIdx t.nrows rstart)
        omega
      have he : clampIdx t.nrows (normIdx t.nrows rstop) = 0 := by
        have := clampIdx_nonneg t.nrows (normIdx t.nrows rstop)
        have := clampIdx_le t.nrows (normIdx t.nrows rstop)
        omega
      simp only [hs, he, sub_self, ceilDivInt_zero rstep hr]
      rfl
    · intro h0
      have hs : clampIdx t.ncols (normIdx t.ncols cstart) = 0 := by
        have := clampIdx_nonneg t.ncols (normIdx t.ncols cstart)
        have := clampIdx_le t.ncols (normIdx t.ncols cstart)
        omega
      have he : clampIdx t.ncols (normIdx t.ncols cstop) = 0 := by
        have := clampIdx_nonneg t.ncols (normIdx t.ncols cstop)
        have := clampIdx_le t.ncols (normIdx t.ncols cstop)
        omega
      simp only [hs, he, sub_self, ceilDivInt_zero cstep hc]
      rfl

/-- C3 witness: the spec's concrete examples — `arange(10)[100::]` has size
0, `arange(10)[-100::]` behaves exactly as `start = 0`, slicing an empty
tensor yields size 0 without raising, and the general 1-D and 2-D clamping
statements instantiated at those inputs. -/
theorem slice_clamps_bounds_never_raises_witness :
    getitem_slice (arangeT 10) (some 100) none none = .ok ⟨10, 0, 1⟩ ∧
    getitem_slice (arangeT 10) (some (-100)) none none =
      getitem_slice (arangeT 10) (some 0) none none ∧
    getitem_slice (arangeT 0) none none none = .ok ⟨0, 0, 1⟩ ∧
    (∃ u, tensor_slice (arangeT 10) 100 10 1 = .ok u ∧
      tensor_slice (arangeT 10) (clampIdx 10 (normIdx 10 100))
        (clampIdx 10 (normIdx 10 10)) 1 = .ok u ∧
      0 ≤ clampIdx 10 (normIdx 10 100) ∧
      clampIdx 10 (normIdx 10 100) ≤ (10 : Int) ∧
      0 ≤ clampIdx 10 (normIdx 10 10) ∧
      clampIdx 10 (normIdx 10 10) ≤ (10 : Int) ∧
      ((10 : Nat) = 0 → u.size = 0)) ∧
    (∃ u, tensor_slice2 ⟨(0, 0), 4, 2, 2, (2, 1)⟩ 100 (-100) 1 0 2 1 = .ok u ∧
      tensor_slice2 ⟨(0, 0), 4, 2, 2, (2, 1)⟩ (clampIdx 2 (normIdx 2 100))
        (clampIdx 2 (normIdx 2 (-100))) 1 (clampIdx 2 (normIdx 2 0))
        (clampIdx 2 (normIdx 2 2)) 1 = .ok u ∧
      ((2 : Nat) = 0 → u.nrows = 0) ∧ ((2 : Nat) = 0 → u.ncols = 0)) :=
  ⟨by rfl, by rfl, by rfl,
   slice_clamps_bounds_never_raises.1 (arangeT 10) 100 10 1 (by decide),
   slice_clamps_bounds_never_raises.2 ⟨(0, 0), 4, 2, 2, (2, 1)⟩
     100 (-100) 1 0 2 1 (by decide) (by decide)⟩

/-- Modelled from the spec: `tensor_item` of the missing `tensor1d.c`
(§4.3 `item`): valid only when `size == 1`, in which case it returns the one
value; fails with ValueError otherwise (the spec marks this guard as a
required invariant check). -/
def tensor_item (buf : List ℚ) (t : Tensor1) : Except Err ℚ :=
  if t.size = 1 then .ok (buf.getD (physical1 t 0).toNat 0)
  else .error .valueError

/-- C6: `item` succeeds exactly on size-1 tensors: when `size = 1` it
returns the tensor's one value (the value `get` reads at index 0), and for
every tensor whose size is not 1 it fails with ValueError. -/
theorem item_requires_unit_size (buf : List ℚ) (t : Tensor1) :
    (t.size = 1 →
      tensor_item buf t = .ok (buf.getD (physical1 t 0).toNat 0) ∧
      tensor_getitem buf t 0 = .ok (buf.getD (physical1 t 0).toNat 0)) ∧
    (t.size ≠ 1 → tensor_item buf t = .error .valueError) := by
  constructor
  · intro h1
    refine ⟨by simp [tensor_item, h1], ?_⟩
    have h0 : normIdx 1 0 = 0 := rfl
    simp [tensor_getitem, h1, h0]
  · intro h1
    simp [tensor_item, h1]

/-- C6 witness: `item` on the size-1 tensor `arange 1` returns its value 0,
and on the size-5 tensor `arange 5` fails with ValueError. -/
theorem item_requires_unit_size_witness :
    tensor_item (arangeBuf 1) (arangeT 1) = .ok 0 ∧
    tensor_item (arangeBuf 5) (arangeT 5) = .error .valueError :=
  ⟨((item_requires_unit_size (arangeBuf 1) (arangeT 1)).1 (by decide)).1,
   (item_requires_unit_size (arangeBuf 5) (arangeT 5)).2 (by decide)⟩

/-- The index keys Python can hand to `tensor1d.Tensor.__getitem__` /
`__setitem__`: an int, a slice object, or anything else. -/
inductive Key1 where
  | idx (i : Int)
  | slc (start stop step : Option Int)
  | other (s : String)

/-- From `tensor1d.py` `__setitem__`: an int key writes through the engine;
every other key raises TypeError, and no assignment is performed. -/
def setitem_py (buf : List ℚ) (t : Tensor1) (k : Key1) (v : ℚ) :
    Except Err (List ℚ) :=
  match k with
  | .idx i => tensor_setitem buf t i v
  | .slc _ _ _ => .error .typeError
  | .other _ => .error .typeError

/-- C8: element assignment through any non-int key — including a slice key —
raises TypeError and never produces an updated buffer (the slice branch of
`__setitem__` does not exist, so slice assignment is never performed). -/
theorem setitem_non_int_key_type_error
    (buf : List ℚ) (t : Tensor1) (v : ℚ)
    (start stop step : Option Int) (s : String) :
    setitem_py buf t (.slc start stop step) v = .error .typeError ∧
    setitem_py buf t (.other s) v = .error .typeError :=
  ⟨rfl, rfl⟩

/-- Raw (unchecked) 1-D storage read at a translated physical offset, as the
C arithmetic loops perform it. -/
def get1raw (buf : List ℚ) (t : Tensor1) (i : Int) : ℚ :=
  buf.getD (physical1 t i).toNat 0

/-- Modelled from the spec: `tensor_addf` of the missing `tensor1d.c`
(§4.5 `add_scalar`): elementwise `t[i] + v` into a freshly allocated
contiguous tensor. -/
def tensor_addf (buf : List ℚ) (t : Tensor1) (v : ℚ) : List ℚ × Tensor1 :=
  ((List.range t.size).map (fun i => get1raw buf t i + v), ⟨0, t.size, 1⟩)

/-- Modelled from the spec: `tensor_add` of the missing `tensor1d.c`
(§4.5 `add`): requires equal sizes or exactly one single-element operand
(broadcast); returns NULL (`none`) on shape mismatch. -/
def tensor_add (b1 : List ℚ) (t1 : Tensor1) (b2 : List ℚ) (t2 : Tensor1) :
    Option (List ℚ × Tensor1) :=
  if t1.size = t2.size then
    some ((List.range t1.size).map
      (fun i => get1raw b1 t1 i + get1raw b2 t2 i), ⟨0, t1.size, 1⟩)
  else if t1.size = 1 then
    some ((List.range t2.size).map
      (fun i => get1raw b1 t1 0 + get1raw b2 t2 i), ⟨0, t2.size, 1⟩)
  else if t2.size = 1 then
    some ((List.range t1.size).map
      (fun i => get1raw b1 t1 i + get1raw b2 t2 0), ⟨0, t1.size, 1⟩)
  else none

/-- Raw (unchecked) 2-D storage read at a translated physical offset. -/
def get2raw (buf : List ℚ) (t : Tensor2) (r c : Int) : ℚ :=
  buf.getD (physical2 t r c).toNat 0

/-- A freshly allocated contiguous (row-major) 2-D tensor record of shape
`(r, c)`: offsets 0, `size = r*c`, strides `(c, 1)` (§4.3 `empty`). -/
def freshT2 (r c : Nat) : Tensor2 :=
  ⟨(0, 0), r * c, r, c, ((c : Int), 1)⟩

/-- A zero-initialized buffer of `r*c` cells. -/
def zeros2 (r c : Nat) : List ℚ :=
  List.replicate (r * c) 0

/-- Modelled from the spec: `tensor_mulf` of the missing `tensor2d.c`
(§4.5 `mul_scalar`): elementwise `t[r,c] * v` into a fresh tensor. -/
def tensor_mulf (buf : List ℚ) (t : Tensor2) (v : ℚ) : List ℚ × Tensor2 :=
  ((List.range (t.nrows * t.ncols)).map
     (fun k => get2raw buf t (k / t.ncols) (k % t.ncols) * v),
   freshT2 t.nrows t.ncols)

/-- Modelled from the spec: `tensor_mul` of the missing `tensor2d.c`
(§4.5 `mul`): total sizes must match, or one operand is single-element and
is broadcast; NULL (`none`) on mismatch. -/
def tensor_mul (b1 : List ℚ) (t1 : Tensor2) (b2 : List ℚ) (t2 : Tensor2) :
    Option (List ℚ × Tensor2) :=
  if t1.size = t2.size then
    some ((List.range (t1.nrows * t1.ncols)).map
      (fun k => get2raw b1 t1 (k / t1.ncols) (k % t1.ncols) *
        get2raw b2 t2 (k / t1.ncols) (k % t1.ncols)),
      freshT2 t1.nrows t1.ncols)
  else if t1.size = 1 then
    some ((List.range (t2.nrows * t2.ncols)).map
      (fun k => get2raw b1 t1 0 0 * get2raw b2 t2 (k / t2.ncols) (k % t2.ncols)),
      freshT2 t2.nrows t2.ncols)
  else if t2.size = 1 then
    some ((List.range (t1.nrows * t1.ncols)).map
      (fun k => get2raw b1 t1 (k / t1.ncols) (k % t1.ncols) * get2raw b2 t2 0 0),
      freshT2 t1.nrows t1.ncols)
  else none

/-- The engine entry points the binding layer can invoke; used to record a
trace of C calls so that "the error is raised before any computation" is
observable in the model. -/
inductive CCall where
  | addf1
  | add1
  | mulf2
  | mul2
  deriving DecidableEq, Repr

/-- An operand handed to `tensor1d.Tensor.__add__`: a numeric scalar, a
same-engine Tensor, or any other Python value. -/
inductive Operand1 where
  | scalar (v : ℚ)
  | tens (buf : List ℚ) (t : Tensor1)
  | other (s : String)

/-- An operand handed to `tensor2d.Tensor.__mul__`. -/
inductive Operand2 where
  | scalar (v : ℚ)
  | tens (buf : List ℚ) (t : Tensor2)
  | other (s : String)

/-- From `tensor1d.py` `__add__`: dispatch on the operand kind; a scalar
goes to `tensor_addf`, a Tensor to `tensor_add` (NULL becomes ValueError),
anything else raises TypeError before any engine call — the returned trace
lists the engine calls made, and since storage can only change through
engine calls, an empty trace means neither operand was touched. -/
def add_py (buf : List ℚ) (t : Tensor1) (o : Operand1) :
    Except Err (List ℚ × Tensor1) × List CCall :=
  match o with
  | .scalar v => (.ok (tensor_addf buf t v), [.addf1])
  | .tens b2 t2 =>
      (match tensor_add buf t b2 t2 with
       | some r => .ok r
       | none => .error .valueError, [.add1])
  | .other _ => (.error .typeError, [])

/-- From `tensor2d.py` `__mul__`: same dispatch shape as `__add__`. -/
def mul_py (buf : List ℚ) (t : Tensor2) (o : Operand2) :
    Except Err (List ℚ × Tensor2) × List CCall :=
  match o with
  | .scalar v => (.ok (tensor_mulf buf t v), [.mulf2])
  | .tens b2 t2 =>
      (match tensor_mul buf t b2 t2 with
       | some r => .ok r
       | none => .error .valueError, [.mul2])
  | .other _ => (.error .typeError, [])

/-- C7: passing an operand that is neither a numeric scalar nor a
same-engine Tensor to `add` (1-D) or `mul` (2-D) raises TypeError with an
empty engine-call trace: the error is raised before any computation and no
storage cell of either operand can have been mutated. -/
theorem add_mul_foreign_operand_type_error
    (buf : List ℚ) (t : Tensor1) (s : String)
    (buf2 : List ℚ) (t2 : Tensor2) (s2 : String) :
    add_py buf t (.other s) = (.error .typeError, []) ∧
    mul_py buf2 t2 (.other s2) = (.error .typeError, []) :=
  ⟨rfl, rfl⟩

/-- Modelled from the spec: `tensor_dot` of the missing `tensor2d.c`
(§4.5 `dot`): requires `t1.ncols == t2.nrows` (NULL otherwise); the result
has shape `(t1.nrows, t2.ncols)` with the standard triple-loop accumulation
into a fresh row-major tensor. -/
def tensor_dot (b1 : List ℚ) (t1 : Tensor2) (b2 : List ℚ) (t2 : Tensor2) :
    Option (List ℚ × Tensor2) :=
  if t1.ncols = t2.nrows then
    some ((List.range (t1.nrows * t2.ncols)).map
      (fun k => (List.range t1.ncols).foldl
        (fun acc j => acc + get2raw b1 t1 (k / t2.ncols) j *
          get2raw b2 t2 j (k % t2.ncols)) 0),
      freshT2 t1.nrows t2.ncols)
  else none

/-- From `tensor2d.py` `Tensor.dot`: a NULL result from the engine becomes
ValueError. -/
def dot_py (b1 : List ℚ) (t1 : Tensor2) (b2 : List ℚ) (t2 : Tensor2) :
    Except Err (List ℚ × Tensor2) :=
  match tensor_dot b1 t1 b2 t2 with
  | some r => .ok r
  | none => .error .valueError

/-- C4: `dot(t1, t2)` succeeds exactly when `t1.ncols = t2.nrows`, in which
case the result is a fresh tensor of shape `(t1.nrows, t2.ncols)`; on any
other pair of shapes it fails with ValueError. -/
theorem dot_shape_check (b1 b2 : List ℚ) (t1 t2 : Tensor2) :
    (t1.ncols = t2.nrows →
      ∃ r, dot_py b1 t1 b2 t2 = .ok r ∧
        r.2 = freshT2 t1.nrows t2.ncols ∧
        r.2.nrows = t1.nrows ∧ r.2.ncols = t2.ncols) ∧
    (t1.ncols ≠ t2.nrows → dot_py b1 t1 b2 t2 = .error .valueError) := by
  constructor
  · intro h
    unfold dot_py tensor_dot
    rw [if_pos h]
    exact ⟨_, rfl, rfl, rfl, rfl⟩
  · intro h
    unfold dot_py tensor_dot
    rw [if_neg h]

/-- C4 witness: the spec's example — `dot` of a `(5,4)` tensor with a
`(4,5)` tensor succeeds with shape `(5,5)`, and `dot` of a `(5,4)` tensor
with a `(5,4)` tensor raises ValueError. -/
theorem dot_shape_check_witness :
    (∃ r, dot_py (zeros2 5 4) (freshT2 5 4) (zeros2 4 5) (freshT2 4 5) = .ok r ∧
      r.2 = freshT2 5 5 ∧ r.2.nrows = 5 ∧ r.2.ncols = 5) ∧
    dot_py (zeros2 5 4) (freshT2 5 4) (zeros2 5 4) (freshT2 5 4) =
      .error .valueError :=
  ⟨(dot_shape_check (zeros2 5 4) (zeros2 4 5) (freshT2 5 4) (freshT2 4 5)).1 rfl,
   (dot_shape_check (zeros2 5 4) (zeros2 5 4) (freshT2 5 4) (freshT2 5 4)).2
     (by decide)⟩

/-- Modelled from the spec: `tensor_setitem` of the missing `tensor2d.c`
(§4.3 `set`): normalize each axis index, bounds-check, write through to the
shared storage buffer at the translated physical offset. -/
def tensor_setitem2 (buf : List ℚ) (t : Tensor2) (r c : Int) (v : ℚ) :
    Except Err (List ℚ) :=
  let r' := normIdx t.nrows r
  let c' := normIdx t.ncols c
  if 0 ≤ r' ∧ r' < (t.nrows : Int) ∧ 0 ≤ c' ∧ c' < (t.ncols : Int) then
    .ok (buf.set (physical2 t r' c').toNat v)
  else
    .error .indexError

/-- The inner loop of `tensor2d.py` `__init__` (list branch): write row `i`
of the data, column by column starting at column `j`. -/
def writeRow (buf : List ℚ) (t : Tensor2) (i : Nat) (j : Nat) :
    List ℚ → Except Err (List ℚ)
  | [] => .ok buf
  | v :: rest => do
      let buf' ← tensor_setitem2 buf t (i : Int) (j : Int) v
      writeRow buf' t i (j + 1) rest

/-- The outer loop of `tensor2d.py` `__init__` (list branch): write the rows
of the data starting at row `i`. -/
def writeRows (buf : List ℚ) (t : Tensor2) (i : Nat) :
    List (List ℚ) → Except Err (List ℚ)
  | [] => .ok buf
  | row :: rest => do
      let buf' ← writeRow buf t i 0 row
      writeRows buf' t (i + 1) rest

/-- Modelled from the spec: `tensor_empty` of the missing `tensor2d.c`
(§4.3 `empty`): exactly `r*c` cells, offsets 0, row-major strides `(c, 1)`
(the buffer contents are modelled as zeros). -/
def tensor2_empty (r c : Nat) : List ℚ × Tensor2 :=
  (zeros2 r c, freshT2 r c)

/-- The inputs Python can hand to `tensor2d.Tensor.__init__` as
`size_or_data`: a tuple, a (nested) list, a range, or anything else. -/
inductive Input2 where
  | tup (r c : Nat)
  | lst (data : List (List ℚ))
  | rng (n : Nat)
  | other (s : String)

/-- From `tensor2d.py` `__init__`: a tuple allocates `empty(r, c)`; a list
reads `len(data[0])` — which raises IndexError on an empty outer list — to
size the allocation, then writes every element; a nonempty range reaches
`len(data[0])` on an int and raises TypeError; every other input raises
TypeError from the explicit type check. -/
def tensor2_init : Input2 → Except Err (List ℚ × Tensor2)
  | .tup r c => .ok (tensor2_empty r c)
  | .lst [] => .error .indexError
  | .lst (r0 :: rest) =>
      let p := tensor2_empty (r0 :: rest).length r0.length
      (writeRows p.1 p.2 0 (r0 :: rest)).map (fun buf => (buf, p.2))
  | .rng 0 => .error .indexError
  | .rng (_ + 1) => .error .typeError
  | .other _ => .error .typeError

/-- C10: the 2-D constructor sizes its allocation from the length of the
first row (when it succeeds, the tensor's `ncols` is the first row's length
and `nrows` the number of rows); `tensor([])` raises IndexError — not
TypeError — and any non-list, non-tuple, non-range input raises TypeError. -/
theorem tensor2_init_first_row_and_errors :
    tensor2_init (.lst []) = .error .indexError ∧
    (∀ s, tensor2_init (.other s) = .error .typeError) ∧
    (∀ r0 rest, match tensor2_init (.lst (r0 :: rest)) with
      | .ok p => p.2.ncols = r0.length ∧ p.2.nrows = (r0 :: rest).length
      | .error _ => True) := by
  refine ⟨rfl, fun s => rfl, fun r0 rest => ?_⟩
  unfold tensor2_init
  cases h : writeRows (tensor2_empty (r0 :: rest).length r0.length).1
      (tensor2_empty (r0 :: rest).length r0.length).2 0 (r0 :: rest) with
  | error e => simp only [h, Except.map]
  | ok buf =>
      simp only [h, Except.map]
      exact ⟨rfl, rfl⟩

/-- The Python-level 2-D tensor object of `tensor2d.py`: it holds the C
tensor record (with its storage buffer) and the `shape` attribute that
`__init__` always sets to `(self.tensor.nrows, self.tensor.ncols)`. -/
structure PyTensor2 where
  buf : List ℚ
  tensor : Tensor2
  shape : Nat × Nat

/-- From `tensor2d.py` `__init__` (line 68): every constructed object gets
`shape = (tensor.nrows, tensor.ncols)`. -/
def pyWrap (buf : List ℚ) (ct : Tensor2) : PyTensor2 :=
  ⟨buf, ct, (ct.nrows, ct.ncols)⟩

/-- `shape` agrees with the underlying tensor record. -/
def shapeConsistent (p : PyTensor2) : Prop :=
  p.shape = (p.tensor.nrows, p.tensor.ncols)

/-- `shape` agrees with the underlying record whenever construction
succeeded. -/
def shapeConsistentE (e : Except Err PyTensor2) : Prop :=
  match e with
  | .ok p => shapeConsistent p
  | .error _ => True

/-- From `tensor2d.py`: the constructor called on a tuple shape. -/
def py2_fromTuple (r c : Nat) : PyTensor2 :=
  pyWrap (tensor2_empty r c).1 (tensor2_empty r c).2

/-- From `tensor2d.py`: the constructor called on arbitrary `size_or_data`. -/
def py2_init (inp : Input2) : Except Err PyTensor2 :=
  (tensor2_init inp).map (fun p => pyWrap p.1 p.2)

/-- From `tensor2d.py` `__getitem__` (slice branch): wrap the sliced C
tensor, which shares the parent's storage. -/
def py2_slice (p : PyTensor2)
    (rstart rstop rstep cstart cstop cstep : Option Int) :
    Except Err PyTensor2 :=
  (getitem_slice2 p.tensor rstart rstop rstep cstart cstop cstep).map
    (pyWrap p.buf)

/-- From `tensor2d.py` `Tensor.dot`: wrap the fresh result tensor. -/
def py2_dot (p q : PyTensor2) : Except Err PyTensor2 :=
  (dot_py p.buf p.tensor q.buf q.tensor).map (fun r => pyWrap r.1 r.2)

/-- From `tensor2d.py` `__mul__`: wrap the fresh result tensor. -/
def py2_mul (p : PyTensor2) (o : Operand2) : Except Err PyTensor2 :=
  (mul_py p.buf p.tensor o).1.map (fun r => pyWrap r.1 r.2)

/-- Modelled from the spec: `reshape` of the missing `tensor2d.c` (§4.5):
requires `nrows*ncols == t.size` (NULL otherwise); returns a view over the
same storage with row-major strides for the new shape, offset unchanged. -/
def reshape2 (t : Tensor2) (r c : Nat) : Option Tensor2 :=
  if r * c = t.size then some ⟨t.offset, r * c, r, c, ((c : Int), 1)⟩
  else none

/-- From `tensor2d.py` `Tensor.reshape`: NULL becomes ValueError. -/
def py2_reshape (p : PyTensor2) (r c : Nat) : Except Err PyTensor2 :=
  match reshape2 p.tensor r c with
  | some t => .ok (pyWrap p.buf t)
  | none => .error .valueError

theorem shapeConsistent_pyWrap (buf : List ℚ) (ct : Tensor2) :
    shapeConsistent (pyWrap buf ct) := rfl

theorem shapeConsistentE_map (buf : List ℚ)
    (e : Except Err Tensor2) :
    shapeConsistentE (e.map (pyWrap buf)) := by
  cases e <;> simp [Except.map, shapeConsistentE, shapeConsistent_pyWrap]

theorem shapeConsistentE_map_pair
    (e : Except Err (List ℚ × Tensor2)) :
    shapeConsistentE (e.map (fun r => pyWrap r.1 r.2)) := by
  cases e <;> simp [Except.map, shapeConsistentE, shapeConsistent_pyWrap]

/-- C9: every Python-level 2-D Tensor object — whether built from a tuple
shape, from nested data, or by wrapping the C result of slice, mul, dot or
reshape — carries `shape = (nrows, ncols)` of its underlying tensor
record. -/
theorem py2_shape_matches_record :
    (∀ r c, shapeConsistent (py2_fromTuple r c)) ∧
    (∀ inp, shapeConsistentE (py2_init inp)) ∧
    (∀ p rstart rstop rstep cstart cstop cstep,
      shapeConsistentE (py2_slice p rstart rstop rstep cstart cstop cstep)) ∧
    (∀ p q, shapeConsistentE (py2_dot p q)) ∧
    (∀ p o, shapeConsistentE (py2_mul p o)) ∧
    (∀ p r c, shapeConsistentE (py2_reshape p r c)) := by
  refine ⟨fun r c => rfl, fun inp => shapeConsistentE_map_pair _,
    fun p rs re rp cs ce cp => shapeConsistentE_map _ _,
    fun p q => shapeConsistentE_map_pair _,
    fun p o => shapeConsistentE_map_pair _,
    fun p r c => ?_⟩
  unfold py2_reshape
  cases reshape2 p.tensor r c with
  | none => trivial
  | some t => exact shapeConsistent_pyWrap _ _

/-- The per-element write loop of `tensor1d.py` `__init__` (list branch):
`for i, val in enumerate(data): tensor_setitem(self.tensor, i, val)`,
starting at index `k`. -/
def writeSeq (buf : List ℚ) (t : Tensor1) (k : Nat) : List ℚ → Except Err (List ℚ)
  | [] => .ok buf
  | v :: rest => do
      let buf' ← tensor_setitem buf t (k : Int) v
      writeSeq buf' t (k + 1) rest

/-- From `tensor1d.py` `__init__` (list branch): allocate via
`tensor_arange(len(data))`, then write every element in order. -/
def tensor1_init (data : List ℚ) : Except Err (List ℚ × Tensor1) :=
  (writeSeq (arangeBuf data.length) (arangeT data.length) 0 data).map
    (fun buf => (buf, arangeT data.length))

/-- The read loop of `tensor1d.py` `tolist`:
`[tensor_getitem(self.tensor, i) for i in range(len(self))]`. -/
def readSeq (buf : List ℚ) (t : Tensor1) : List Nat → Except Err (List ℚ)
  | [] => .ok []
  | i :: rest => do
      let v ← tensor_getitem buf t (i : Int)
      let vs ← readSeq buf t rest
      .ok (v :: vs)

/-- From `tensor1d.py` `tolist`. -/
def tolist1 (buf : List ℚ) (t : Tensor1) : Except Err (List ℚ) :=
  readSeq buf t (List.range t.size)

/-- Sequential overwrite of a buffer from position `k` (the pure effect of a
successful write loop). -/
def overwrite (buf : List ℚ) (k : Nat) : List ℚ → List ℚ
  | [] => buf
  | v :: rest => overwrite (buf.set k v) (k + 1) rest


theorem overwrite_append (l1 l2 : List ℚ) : ∀ (buf : List ℚ) (k : Nat),
    overwrite buf k (l1 ++ l2) =
      overwrite (overwrite buf k l1) (k + l1.length) l2 := by
  induction l1 with
  | nil => intro buf k; rfl
  | cons v rest ih =>
      intro buf k
      show overwrite (buf.set k v) (k + 1) (rest ++ l2) =
        overwrite (overwrite (buf.set k v) (k + 1) rest) (k + (rest.length + 1)) l2
      rw [show k + (rest.length + 1) = (k + 1) + rest.length from by omega]
      exact ih (buf.set k v) (k + 1)

theorem overwrite_eq_append : ∀ (l buf : List ℚ) (k : Nat),
    buf.length = k + l.length → overwrite buf k l = buf.take k ++ l := by
  intro l
  induction l with
  | nil =>
      intro buf k h
      simp at h
      simp only [overwrite, List.append_nil]
      exact (List.take_of_length_le (by omega)).symm
  | cons v rest ih =>
      intro buf k h
      have hk : k < buf.length := by simp at h; omega
      show overwrite (buf.set k v) (k + 1) rest = buf.take k ++ v :: rest
      rw [ih (buf.set k v) (k + 1) (by simp at h ⊢; omega)]
      rw [List.set_eq_take_cons_drop v hk]
      have hlen : (buf.take k).length = k := by
        simp [List.length_take]
        omega
      rw [show k + 1 = (buf.take k).length + 1 from by rw [hlen]]
      rw [List.take_append 1]
      simp

theorem setitem_contig (buf : List ℚ) (n k : Nat) (v : ℚ) (hk : k < n) :
    tensor_setitem buf (arangeT n) (k : Int) v = .ok (buf.set k v) := by
  simp only [tensor_setitem, arangeT, normIdx, physical1]
  rw [if_neg (show ¬((k : Int) < 0) from by omega)]
  rw [if_pos (show (0 : Int) ≤ (k : Int) ∧ (k : Int) < (n : Int) from
    ⟨by omega, by omega⟩)]
  simp

theorem getitem_contig (buf : List ℚ) (n k : Nat) (hk : k < n) :
    tensor_getitem buf (arangeT n) (k : Int) = .ok (buf.getD k 0) := by
  simp only [tensor_getitem, arangeT, normIdx, physical1]
  rw [if_neg (show ¬((k : Int) < 0) from by omega)]
  rw [if_pos (show (0 : Int) ≤ (k : Int) ∧ (k : Int) < (n : Int) from
    ⟨by omega, by omega⟩)]
  simp

theorem writeSeq_arange_ok : ∀ (l buf : List ℚ) (k n : Nat), k + l.length ≤ n →
    writeSeq buf (arangeT n) k l = .ok (overwrite buf k l) := by
  intro l
  induction l with
  | nil => intro buf k n h; rfl
  | cons v rest ih =>
      intro buf k n h
      have hk : k < n := by simp at h; omega
      unfold writeSeq
      rw [setitem_contig buf n k v hk]
      show writeSeq (buf.set k v) (arangeT n) (k + 1) rest =
        .ok (overwrite (buf.set k v) (k + 1) rest)
      exact ih _ (k + 1) n (by simp at h; omega)

theorem readSeq_arange_ok (data : List ℚ) : ∀ (cnt s : Nat),
    s + cnt = data.length →
    readSeq data (arangeT data.length) (List.range' s cnt) =
      .ok (data.drop s) := by
  intro cnt
  induction cnt with
  | zero =>
      intro s h
      have hd : data.drop s = [] := List.drop_eq_nil_of_le (by omega)
      simp [List.range'_zero, readSeq, hd]
  | succ cnt ih =>
      intro s h
      rw [List.range'_succ s cnt 1]
      have hs : s < data.length := by omega
      unfold readSeq
      rw [getitem_contig data data.length s hs, ih (s + 1) (by omega)]
      show Except.ok (data.getD s 0 :: data.drop (s + 1)) = .ok (data.drop s)
      rw [List.getD_eq_getElem data 0 hs, List.drop_eq_getElem_cons hs]

/-- Modelled from the spec: `tensor_getitem` of the missing `tensor2d.c`
(§4.3 `get`): per-axis normalization and bounds check, then read the cell
at the translated physical offset. -/
def tensor_getitem2 (buf : List ℚ) (t : Tensor2) (r c : Int) : Except Err ℚ :=
  let r' := normIdx t.nrows r
  let c' := normIdx t.ncols c
  if 0 ≤ r' ∧ r' < (t.nrows : Int) ∧ 0 ≤ c' ∧ c' < (t.ncols : Int) then
    .ok (buf.getD (physical2 t r' c').toNat 0)
  else
    .error .indexError

/-- The inner read loop of `tensor2d.py` `tolist` over the columns of row
`i`. -/
def readRow2 (buf : List ℚ) (t : Tensor2) (i : Nat) :
    List Nat → Except Err (List ℚ)
  | [] => .ok []
  | j :: rest => do
      let v ← tensor_getitem2 buf t (i : Int) (j : Int)
      let vs ← readRow2 buf t i rest
      .ok (v :: vs)

/-- The outer read loop of `tensor2d.py` `tolist` over the rows. -/
def readRows2 (buf : List ℚ) (t : Tensor2) :
    List Nat → Except Err (List (List ℚ))
  | [] => .ok []
  | i :: rest => do
      let row ← readRow2 buf t i (List.range t.ncols)
      let rows ← readRows2 buf t rest
      .ok (row :: rows)

/-- From `tensor2d.py` `tolist`. -/
def tolist2 (buf : List ℚ) (t : Tensor2) : Except Err (List (List ℚ)) :=
  readRows2 buf t (List.range t.nrows)

theorem setitem2_fresh (buf : List ℚ) (R C i j : Nat) (v : ℚ)
    (hi : i < R) (hj : j < C) :
    tensor_setitem2 buf (freshT2 R C) (i : Int) (j : Int) v =
      .ok (buf.set (i * C + j) v) := by
  simp only [tensor_setitem2, freshT2, normIdx, physical2]
  rw [if_neg (show ¬((i : Int) < 0) from by omega),
    if_neg (show ¬((j : Int) < 0) from by omega)]
  rw [if_pos (show (0 : Int) ≤ (i : Int) ∧ (i : Int) < (R : Int) ∧
      (0 : Int) ≤ (j : Int) ∧ (j : Int) < (C : Int) from
    ⟨by omega, by omega, by omega, by omega⟩)]
  congr 1
  have harith : ((0 : Int) + (i : Int) * (C : Int) + 0 + (j : Int) * 1) =
      ((i * C + j : Nat) : Int) := by push_cast; ring
  rw [harith, Int.toNat_natCast]

theorem getitem2_fresh (buf : List ℚ) (R C i j : Nat)
    (hi : i < R) (hj : j < C) :
    tensor_getitem2 buf (freshT2 R C) (i : Int) (j : Int) =
      .ok (buf.getD (i * C + j) 0) := by
  simp only [tensor_getitem2, freshT2, normIdx, physical2]
  rw [if_neg (show ¬((i : Int) < 0) from by omega),
    if_neg (show ¬((j : Int) < 0) from by omega)]
  rw [if_pos (show (0 : Int) ≤ (i : Int) ∧ (i : Int) < (R : Int) ∧
      (0 : Int) ≤ (j : Int) ∧ (j : Int) < (C : Int) from
    ⟨by omega, by omega, by omega, by omega⟩)]
  congr 1
  have harith : ((0 : Int) + (i : Int) * (C : Int) + 0 + (j : Int) * 1) =
      ((i * C + j : Nat) : Int) := by push_cast; ring
  rw [harith, Int.toNat_natCast]

theorem writeRow_ok (R C i : Nat) (hi : i < R) : ∀ (row buf : List ℚ) (j : Nat),
    j + row.length ≤ C →
    writeRow buf (freshT2 R C) i j row = .ok (overwrite buf (i * C + j) row) := by
  intro row
  induction row with
  | nil => intro buf j h; rfl
  | cons v rest ih =>
      intro buf j h
      have hj : j < C := by simp at h; omega
      unfold writeRow
      rw [setitem2_fresh buf R C i j v hi hj]
      show writeRow (buf.set (i * C + j) v) (freshT2 R C) i (j + 1) rest =
        .ok (overwrite (buf.set (i * C + j) v) (i * C + j + 1) rest)
      have := ih (buf.set (i * C + j) v) (j + 1) (by simp at h; omega)
      rw [show i * C + (j + 1) = i * C + j + 1 from by omega] at this
      exact this

theorem writeRows_ok (R C : Nat) : ∀ (rows : List (List ℚ)) (buf : List ℚ)
    (i : Nat), i + rows.length ≤ R → (∀ row ∈ rows, row.length = C) →
    writeRows buf (freshT2 R C) i rows =
      .ok (overwrite buf (i * C) rows.flatten) := by
  intro rows
  induction rows with
  | nil => intro buf i h hr; rfl
  | cons row rest ih =>
      intro buf i h hr
      have hrow : row.length = C := hr row (List.mem_cons_self row rest)
      have hi : i < R := by simp at h; omega
      unfold writeRows
      rw [writeRow_ok R C i hi row buf 0 (by omega)]
      show writeRows (overwrite buf (i * C + 0) row) (freshT2 R C) (i + 1) rest =
        .ok (overwrite buf (i * C) (row :: rest).flatten)
      rw [show i * C + 0 = i * C from rfl]
      rw [ih (overwrite buf (i * C) row) (i + 1) (by simp at h ⊢; omega)
        (fun r h' => hr r (List.mem_cons_of_mem row h'))]
      rw [List.flatten_cons, overwrite_append row rest.flatten buf (i * C)]
      rw [hrow, show i * C + C = (i + 1) * C from by ring]

theorem flatten_length_rect (C : Nat) : ∀ (data : List (List ℚ)),
    (∀ row ∈ data, row.length = C) → data.flatten.length = data.length * C := by
  intro data
  induction data with
  | nil => intro _; simp
  | cons row rest ih =>
      intro hr
      simp only [List.flatten_cons, List.length_append, List.length_cons]
      rw [hr row (List.mem_cons_self row rest),
        ih (fun r h => hr r (List.mem_cons_of_mem row h))]
      ring

theorem flatten_row_take (C : Nat) : ∀ (data : List (List ℚ)) (i : Nat),
    (∀ row ∈ data, row.length = C) → (hi : i < data.length) →
    (data.flatten.drop (i * C)).take C = data[i] := by
  intro data
  induction data with
  | nil => intro i _ hi; exact absurd hi (by simp)
  | cons row rest ih =>
      intro i hr hi
      have hrow : row.length = C := hr row (List.mem_cons_self row rest)
      cases i with
      | zero =>
          simp only [List.flatten_cons, Nat.zero_mul, List.drop_zero,
            List.getElem_cons_zero]
          rw [← hrow, List.take_left]
      | succ i =>
          simp only [List.flatten_cons, List.getElem_cons_succ]
          rw [show (i + 1) * C = row.length + i * C from by rw [hrow]; ring]
          rw [List.drop_append (i * C)]
          exact ih i (fun r h => hr r (List.mem_cons_of_mem row h))
            (by simp at hi; omega)

theorem readRow2_ok (R C : Nat) (buf : List ℚ) (i : Nat) (hi : i < R)
    (hb : i * C + C ≤ buf.length) : ∀ (cnt j : Nat), j + cnt ≤ C →
    readRow2 buf (freshT2 R C) i (List.range' j cnt) =
      .ok ((buf.drop (i * C + j)).take cnt) := by
  intro cnt
  induction cnt with
  | zero => intro j h; simp [List.range'_zero, readRow2]
  | succ cnt ih =>
      intro j h
      rw [List.range'_succ j cnt 1]
      have hj : j < C := by omega
      unfold readRow2
      rw [getitem2_fresh buf R C i j hi hj, ih (j + 1) (by omega)]
      have hidx : i * C + j < buf.length := by omega
      show Except.ok (buf.getD (i * C + j) 0 ::
          (buf.drop (i * C + (j + 1))).take cnt) =
        .ok ((buf.drop (i * C + j)).take (cnt + 1))
      rw [List.getD_eq_getElem buf 0 hidx]
      rw [show i * C + (j + 1) = (i * C + j) + 1 from by omega]
      rw [List.drop_eq_getElem_cons hidx]
      rfl

theorem readRows2_ok (C : Nat) (data : List (List ℚ))
    (hr : ∀ row ∈ data, row.length = C) : ∀ (cnt i : Nat),
    i + cnt = data.length →
    readRows2 data.flatten (freshT2 data.length C) (List.range' i cnt) =
      .ok (data.drop i) := by
  intro cnt
  induction cnt with
  | zero =>
      intro i h
      have hd : data.drop i = [] := List.drop_eq_nil_of_le (by omega)
      simp [List.range'_zero, readRows2, hd]
  | succ cnt ih =>
      intro i h
      rw [List.range'_succ i cnt 1]
      have hi : i < data.length := by omega
      unfold readRows2
      rw [show (freshT2 data.length C).ncols = C from rfl]
      rw [List.range_eq_range' C]
      have hlen : i * C + C ≤ data.flatten.length := by
        rw [flatten_length_rect C data hr]
        calc i * C + C = (i + 1) * C := by ring
          _ ≤ data.length * C := Nat.mul_le_mul_right C (by omega)
      rw [readRow2_ok data.length C data.flatten i hi hlen C 0 (by omega)]
      rw [show i * C + 0 = i * C from rfl]
      rw [flatten_row_take C data i hr hi]
      rw [ih (i + 1) (by omega)]
      show Except.ok (data[i] :: data.drop (i + 1)) = .ok (data.drop i)
      rw [List.drop_eq_getElem_cons hi]

/-- C5 (amended): the round trip `tensor(data).tolist() == data` holds for
every flat list in the 1-D engine, and for every nonempty rectangular
nested list in the 2-D engine (the empty outer list is excluded: there the
2-D constructor raises IndexError, see the counterexample). -/
theorem tensor_tolist_roundtrip :
    (∀ data : List ℚ,
      ∃ buf, tensor1_init data = .ok (buf, arangeT data.length) ∧
        tolist1 buf (arangeT data.length) = .ok data) ∧
    (∀ (r0 : List ℚ) (rest : List (List ℚ)),
      (∀ row ∈ r0 :: rest, row.length = r0.length) →
      ∃ buf, tensor2_init (.lst (r0 :: rest)) =
          .ok (buf, freshT2 (r0 :: rest).length r0.length) ∧
        tolist2 buf (freshT2 (r0 :: rest).length r0.length) =
          .ok (r0 :: rest)) := by
  constructor
  · intro data
    refine ⟨data, ?_, ?_⟩
    · unfold tensor1_init
      rw [writeSeq_arange_ok data (arangeBuf data.length) 0 data.length
        (by omega)]
      have hab : (arangeBuf data.length).length = data.length := by
        simp only [arangeBuf, List.length_map, List.length_range]
      rw [overwrite_eq_append data (arangeBuf data.length) 0
        (by rw [hab]; omega)]
      simp [Except.map]
    · unfold tolist1
      rw [show (arangeT data.length).size = data.length from rfl]
      rw [List.range_eq_range' data.length]
      rw [readSeq_arange_ok data data.length 0 (by omega)]
      simp
  · intro r0 rest hrect
    have hflat : (r0 :: rest).flatten.length =
        (r0 :: rest).length * r0.length :=
      flatten_length_rect r0.length (r0 :: rest) hrect
    refine ⟨(r0 :: rest).flatten, ?_, ?_⟩
    · simp only [tensor2_init, tensor2_empty]
      rw [writeRows_ok (r0 :: rest).length r0.length (r0 :: rest)
        (zeros2 (r0 :: rest).length r0.length) 0 (by omega) hrect]
      rw [show (0 : Nat) * r0.length = 0 from by ring]
      have hz : (zeros2 (r0 :: rest).length r0.length).length =
          (r0 :: rest).length * r0.length := by
        unfold zeros2
        rw [List.length_replicate]
      rw [overwrite_eq_append (r0 :: rest).flatten
        (zeros2 (r0 :: rest).length r0.length) 0 (by rw [hz, hflat]; omega)]
      simp [Except.map]
    · unfold tolist2
      rw [show (freshT2 (r0 :: rest).length r0.length).nrows =
        (r0 :: rest).length from rfl]
      rw [List.range_eq_range' (r0 :: rest).length]
      rw [readRows2_ok r0.length (r0 :: rest) hrect (r0 :: rest).length 0
        (by omega)]
      simp

/-- C5 witness: the round trip evaluated on the concrete inputs `[1, 2, 3]`
(1-D) and `[[1, 2], [3, 4]]` (2-D). -/
theorem tensor_tolist_roundtrip_witness :
    (∃ buf, tensor1_init [1, 2, 3] = .ok (buf, arangeT 3) ∧
      tolist1 buf (arangeT 3) = .ok [1, 2, 3]) ∧
    (∃ buf, tensor2_init (.lst [[1, 2], [3, 4]]) = .ok (buf, freshT2 2 2) ∧
      tolist2 buf (freshT2 2 2) = .ok [[1, 2], [3, 4]]) :=
  ⟨tensor_tolist_roundtrip.1 [1, 2, 3],
   tensor_tolist_roundtrip.2 [1, 2] [[3, 4]] (by
     intro row hrow
     simp at hrow
     rcases hrow with h | h <;> simp [h])⟩

/-- C5 counterexample: for the empty outer list — a rectangular nested
sequence with zero rows — the 2-D constructor raises IndexError (from
`len(data[0])`), so `tensor([]).tolist()` never returns `[]` in the 2-D
engine. -/
theorem tensor2_empty_list_no_roundtrip :
    tensor2_init (.lst ([] : List (List ℚ))) = .error .indexError := rfl

/-- Modelled from the spec: a Storage record as the refcount machine sees
it (§3, §4.1): reference count, freed flag, and the buffer (emptied when
the buffer is freed). -/
structure StorageRec where
  refCount : Nat
  freed : Bool
  buf : List ℚ
  deriving DecidableEq, Repr

/-- A state of the storage/view lifecycle: every Storage ever allocated
(ids are list positions; freed storages remain as tombstones), and the
live Tensors as (storage id, view metadata) pairs. -/
structure MState where
  storages : List StorageRec
  tensors : List (Nat × Tensor1)
  deriving DecidableEq, Repr

/-- The lifecycle events of §3/§4.1/§6: allocate (`arange`), create a view
(`slice` retains the parent's Storage), write through a view (`set`), and
release a Tensor (decrement its Storage; free the buffer at zero). -/
inductive MOp where
  | arange (n : Nat)
  | sliceOp (ti : Nat) (start stop step : Int)
  | setOp (ti : Nat) (i : Int) (v : ℚ)
  | releaseOp (ti : Nat)

/-- Modelled from the spec: one lifecycle step.  Slicing retains the
parent's Storage and adds a view; releasing removes the tensor, decrements
the count and frees the buffer exactly when the count reaches zero;
events naming a nonexistent tensor leave the state unchanged. -/
def mstep (s : MState) : MOp → MState
  | .arange n =>
      { storages := s.storages ++ [⟨1, false, arangeBuf n⟩],
        tensors := s.tensors ++ [(s.storages.length, arangeT n)] }
  | .sliceOp ti start stop step =>
      match s.tensors[ti]? with
      | none => s
      | some (sid, t) =>
          match s.storages[sid]? with
          | none => s
          | some st =>
              match tensor_slice t start stop step with
              | .error _ => s
              | .ok t' =>
                  { storages := s.storages.set sid
                      ⟨st.refCount + 1, st.freed, st.buf⟩,
                    tensors := s.tensors ++ [(sid, t')] }
  | .setOp ti i v =>
      match s.tensors[ti]? with
      | none => s
      | some (sid, t) =>
          match s.storages[sid]? with
          | none => s
          | some st =>
              match tensor_setitem st.buf t i v with
              | .error _ => s
              | .ok buf' =>
                  { storages := s.storages.set sid ⟨st.refCount, st.freed, buf'⟩,
                    tensors := s.tensors }
  | .releaseOp ti =>
      match s.tensors[ti]? with
      | none => s
      | some (sid, _) =>
          match s.storages[sid]? with
          | none => s
          | some st =>
              { storages := s.storages.set sid
                  (if st.refCount - 1 = 0 then ⟨0, true, []⟩
                   else ⟨st.refCount - 1, st.freed, st.buf⟩),
                tensors := s.tensors.eraseIdx ti }

/-- Run a sequence of lifecycle events from the empty state. -/
def runOps (ops : List MOp) : MState :=
  ops.foldl mstep ⟨[], []⟩

/-- The storage record at id `k` (dummy tombstone if out of range). -/
def stoAt (S : List StorageRec) (k : Nat) : StorageRec :=
  S.getD k ⟨0, true, []⟩

/-- Decidable check of the §3 Storage invariant over a whole state: every
live tensor points at an allocated storage, each storage's `ref_count`
equals the number of live Tensors referencing it, and its buffer is freed
exactly when the count is 0. -/
def rcInv (s : MState) : Bool :=
  s.tensors.all (fun p => p.1 < s.storages.length) &&
  (List.range s.storages.length).all (fun k =>
    ((stoAt s.storages k).refCount == s.tensors.countP (fun p => p.1 == k)) &&
    ((stoAt s.storages k).freed == ((stoAt s.storages k).refCount == 0)))

/-- Propositional form of `rcInv`, used in the induction. -/
def rcInvP (S : List StorageRec) (T : List (Nat × Tensor1)) : Prop :=
  (∀ p ∈ T, p.1 < S.length) ∧
  ∀ k, k < S.length →
    (stoAt S k).refCount = T.countP (fun p => p.1 == k) ∧
    (stoAt S k).freed = ((stoAt S k).refCount == 0)

theorem stoAt_set_self (S : List StorageRec) (sid : Nat) (st' : StorageRec)
    (h : sid < S.length) : stoAt (S.set sid st') sid = st' := by
  unfold stoAt
  rw [List.getD_eq_getElem?_getD, List.getElem?_set_self h]
  rfl

theorem stoAt_set_ne (S : List StorageRec) (sid : Nat) (st' : StorageRec)
    (k : Nat) (h : sid ≠ k) : stoAt (S.set sid st') k = stoAt S k := by
  unfold stoAt
  rw [List.getD_eq_getElem?_getD, List.getElem?_set_ne h,
    ← List.getD_eq_getElem?_getD]

theorem stoAt_append_left (S S' : List StorageRec) (k : Nat)
    (h : k < S.length) : stoAt (S ++ S') k = stoAt S k := by
  unfold stoAt
  rw [List.getD_eq_getElem?_getD, List.getElem?_append_left h,
    ← List.getD_eq_getElem?_getD]

theorem stoAt_concat_self (S : List StorageRec) (st' : StorageRec) :
    stoAt (S ++ [st']) S.length = st' := by
  unfold stoAt
  rw [List.getD_eq_getElem?_getD, List.getElem?_concat_length]
  rfl

theorem stoAt_of_getElem? (S : List StorageRec) (k : Nat) (st : StorageRec)
    (h : S[k]? = some st) : stoAt S k = st := by
  unfold stoAt
  rw [List.getD_eq_getElem?_getD, h]
  rfl

theorem countP_eraseIdx_add {α : Type} (p : α → Bool) :
    ∀ (l : List α) (i : Nat) (hi : i < l.length),
    l.countP p = (l.eraseIdx i).countP p + (if p l[i] then 1 else 0) := by
  intro l
  induction l with
  | nil => intro i hi; simp at hi
  | cons x xs ih =>
      intro i hi
      cases i with
      | zero =>
          rw [show (x :: xs).eraseIdx 0 = xs from rfl, List.countP_cons]
          rfl
      | succ i =>
          rw [show (x :: xs).eraseIdx (i + 1) = x :: xs.eraseIdx i from rfl]
          rw [List.countP_cons, List.countP_cons, List.getElem_cons_succ]
          rw [ih i (by simp at hi; omega)]
          omega

theorem rcInvP_arange (S : List StorageRec) (T : List (Nat × Tensor1))
    (n : Nat) (h : rcInvP S T) :
    rcInvP (S ++ [⟨1, false, arangeBuf n⟩]) (T ++ [(S.length, arangeT n)]) := by
  obtain ⟨h1, h2⟩ := h
  constructor
  · intro p hp
    rw [List.length_append]
    rcases List.mem_append.1 hp with hp | hp
    · have := h1 p hp
      simp
      omega
    · simp at hp
      subst hp
      simp
  · intro k hk
    simp only [List.length_append, List.length_cons, List.length_nil] at hk
    have hcnt : (T ++ [(S.length, arangeT n)]).countP (fun p => p.1 == k) =
        T.countP (fun p => p.1 == k) + (if S.length == k then 1 else 0) := by
      rw [List.countP_append]
      simp [List.countP_cons]
    by_cases hks : k < S.length
    · rw [stoAt_append_left S _ k hks, hcnt]
      rw [if_neg (show ¬((S.length == k) = true) from by simp; omega)]
      simpa using h2 k hks
    · have hk' : k = S.length := by omega
      subst hk'
      rw [stoAt_concat_self, hcnt]
      have hzero : T.countP (fun p => p.1 == S.length) = 0 := by
        rw [List.countP_eq_zero]
        intro a ha
        have := h1 a ha
        simp
        omega
      rw [hzero, if_pos (by simp)]
      exact ⟨rfl, rfl⟩

theorem rcInvP_retain (S : List StorageRec) (T : List (Nat × Tensor1))
    (sid : Nat) (st : StorageRec) (t t' : Tensor1)
    (hsid : S[sid]? = some st) (hmem : (sid, t) ∈ T)
    (h : rcInvP S T) :
    rcInvP (S.set sid ⟨st.refCount + 1, st.freed, st.buf⟩)
      (T ++ [(sid, t')]) := by
  obtain ⟨h1, h2⟩ := h
  have hlen : sid < S.length := by
    by_contra hcon
    rw [List.getElem?_eq_none (by omega)] at hsid
    cases hsid
  constructor
  · intro p hp
    rw [List.length_set]
    rcases List.mem_append.1 hp with hp | hp
    · exact h1 p hp
    · simp at hp
      subst hp
      exact hlen
  · intro k hk
    rw [List.length_set] at hk
    have hcnt : (T ++ [(sid, t')]).countP (fun p => p.1 == k) =
        T.countP (fun p => p.1 == k) + (if sid == k then 1 else 0) := by
      rw [List.countP_append]
      simp [List.countP_cons]
    have hx := h2 sid hlen
    rw [stoAt_of_getElem? S sid st hsid] at hx
    by_cases hks : sid = k
    · subst hks
      rw [stoAt_set_self S sid _ hlen, hcnt, if_pos (by simp)]
      have hpos : 0 < T.countP (fun p => p.1 == sid) :=
        List.countP_pos_iff.2 ⟨(sid, t), hmem, by simp⟩
      constructor
      · show st.refCount + 1 = T.countP (fun p => p.1 == sid) + 1
        omega
      · show st.freed = ((st.refCount + 1) == 0)
        have hfreed : st.freed = false := by
          rw [hx.2, beq_eq_false_iff_ne]
          omega
        rw [hfreed, Eq.comm, beq_eq_false_iff_ne]
        omega
    · rw [stoAt_set_ne S sid _ k hks, hcnt,
        if_neg (show ¬((sid == k) = true) from by simpa using hks)]
      simpa using h2 k hk

theorem rcInvP_setbuf (S : List StorageRec) (T : List (Nat × Tensor1))
    (sid : Nat) (st : StorageRec) (buf' : List ℚ)
    (hsid : S[sid]? = some st) (h : rcInvP S T) :
    rcInvP (S.set sid ⟨st.refCount, st.freed, buf'⟩) T := by
  obtain ⟨h1, h2⟩ := h
  have hlen : sid < S.length := by
    by_contra hcon
    rw [List.getElem?_eq_none (by omega)] at hsid
    cases hsid
  constructor
  · intro p hp
    rw [List.length_set]
    exact h1 p hp
  · intro k hk
    rw [List.length_set] at hk
    by_cases hks : sid = k
    · subst hks
      rw [stoAt_set_self S sid _ hlen]
      have hx := h2 sid hlen
      rw [stoAt_of_getElem? S sid st hsid] at hx
      exact hx
    · rw [stoAt_set_ne S sid _ k hks]
      exact h2 k hk

theorem rcInvP_release (S : List StorageRec) (T : List (Nat × Tensor1))
    (ti sid : Nat) (t : Tensor1) (st : StorageRec)
    (hti : T[ti]? = some (sid, t)) (hsid : S[sid]? = some st)
    (h : rcInvP S T) :
    rcInvP (S.set sid (if st.refCount - 1 = 0 then ⟨0, true, []⟩
      else ⟨st.refCount - 1, st.freed, st.buf⟩)) (T.eraseIdx ti) := by
  obtain ⟨h1, h2⟩ := h
  have hlen : sid < S.length := by
    by_contra hcon
    rw [List.getElem?_eq_none (by omega)] at hsid
    cases hsid
  have hti_lt : ti < T.length := by
    by_contra hcon
    rw [List.getElem?_eq_none (by omega)] at hti
    cases hti
  have hTmem : (sid, t) ∈ T := List.getElem?_mem hti
  have hget : T[ti] = (sid, t) := by
    have h' := List.getElem?_eq_getElem hti_lt
    rw [hti] at h'
    exact (Option.some.inj h').symm
  have hx := h2 sid hlen
  rw [stoAt_of_getElem? S sid st hsid] at hx
  have hpos : 0 < T.countP (fun p => p.1 == sid) :=
    List.countP_pos_iff.2 ⟨(sid, t), hTmem, by simp⟩
  constructor
  · intro p hp
    rw [List.length_set]
    exact h1 p (List.mem_of_mem_eraseIdx hp)
  · intro k hk
    rw [List.length_set] at hk
    have hcnt := countP_eraseIdx_add (fun p => p.1 == k) T ti hti_lt
    rw [hget] at hcnt
    by_cases hks : sid = k
    · subst hks
      rw [stoAt_set_self S sid _ hlen]
      rw [if_pos (by simp)] at hcnt
      by_cases hrc : st.refCount - 1 = 0
      · rw [if_pos hrc]
        refine ⟨?_, rfl⟩
        show (0 : Nat) = (T.eraseIdx ti).countP (fun p => p.1 == sid)
        omega
      · rw [if_neg hrc]
        constructor
        · show st.refCount - 1 = (T.eraseIdx ti).countP (fun p => p.1 == sid)
          omega
        · show st.freed = ((st.refCount - 1) == 0)
          have hfreed : st.freed = false := by
            rw [hx.2, beq_eq_false_iff_ne]
            omega
          rw [hfreed, Eq.comm, beq_eq_false_iff_ne]
          omega
    · rw [stoAt_set_ne S sid _ k hks]
      rw [if_neg (show ¬(((sid, t).1 == k) = true) from by simpa using hks)]
        at hcnt
      have hk2 := h2 k hk
      refine ⟨?_, hk2.2⟩
      rw [hk2.1]
      omega

theorem rcInvP_mstep (s : MState) (op : MOp)
    (h : rcInvP s.storages s.tensors) :
    rcInvP (mstep s op).storages (mstep s op).tensors := by
  cases op with
  | arange n => exact rcInvP_arange s.storages s.tensors n h
  | sliceOp ti start stop step =>
      cases hti : s.tensors[ti]? with
      | none => simpa only [mstep, hti] using h
      | some p =>
          obtain ⟨sid, t⟩ := p
          cases hsid : s.storages[sid]? with
          | none => simpa only [mstep, hti, hsid] using h
          | some st =>
              cases hsl : tensor_slice t start stop step with
              | error e => simpa only [mstep, hti, hsid, hsl] using h
              | ok t' =>
                  simpa only [mstep, hti, hsid, hsl] using
                    rcInvP_retain s.storages s.tensors sid st t t' hsid
                      (List.getElem?_mem hti) h
  | setOp ti i v =>
      cases hti : s.tensors[ti]? with
      | none => simpa only [mstep, hti] using h
      | some p =>
          obtain ⟨sid, t⟩ := p
          cases hsid : s.storages[sid]? with
          | none => simpa only [mstep, hti, hsid] using h
          | some st =>
              cases hset : tensor_setitem st.buf t i v with
              | error e => simpa only [mstep, hti, hsid, hset] using h
              | ok buf' =>
                  simpa only [mstep, hti, hsid, hset] using
                    rcInvP_setbuf s.storages s.tensors sid st buf' hsid h
  | releaseOp ti =>
      cases hti : s.tensors[ti]? with
      | none => simpa only [mstep, hti] using h
      | some p =>
          obtain ⟨sid, t⟩ := p
          cases hsid : s.storages[sid]? with
          | none => simpa only [mstep, hti, hsid] using h
          | some st =>
              simpa only [mstep, hti, hsid] using
                rcInvP_release s.storages s.tensors ti sid t st hti hsid h

theorem rcInvP_run : ∀ (ops : List MOp) (s : MState),
    rcInvP s.storages s.tensors →
    rcInvP (ops.foldl mstep s).storages (ops.foldl mstep s).tensors := by
  intro ops
  induction ops with
  | nil => intro s h; exact h
  | cons op rest ih => intro s h; exact ih (mstep s op) (rcInvP_mstep s op h)

theorem rcInv_eq_true (s : MState) (h : rcInvP s.storages s.tensors) :
    rcInv s = true := by
  unfold rcInv
  simp only [Bool.and_eq_true, List.all_eq_true]
  refine ⟨fun p hp => ?_, fun k hk => ?_⟩
  · exact decide_eq_true (h.1 p hp)
  · rw [List.mem_range] at hk
    obtain ⟨hc, hf⟩ := h.2 k hk
    simp only [Bool.and_eq_true, beq_iff_eq]
    exact ⟨hc, hf⟩

/-- C2: for every sequence of lifecycle events (allocations, slices, writes,
releases), every Storage of the resulting state satisfies the §3 invariant:
its `ref_count` equals the number of live Tensors referencing it, and its
buffer is freed exactly when the count is 0 (the release step frees
precisely at the 0 transition).  Concretely, after `t = arange(20)`,
`v = t.slice(5,15,1)`, `release(v)`, the parent's Storage still has
`ref_count = 1`, is not freed, its buffer is unchanged, and `t` is still a
valid view (`t.get(5)` succeeds). -/
theorem storage_refcount_invariant :
    (∀ ops : List MOp, rcInv (runOps ops) = true) ∧
    runOps [.arange 20, .sliceOp 0 5 15 1, .releaseOp 1] =
      ⟨[⟨1, false, arangeBuf 20⟩], [(0, arangeT 20)]⟩ ∧
    tensor_getitem (arangeBuf 20) (arangeT 20) 5 = .ok 5 := by
  refine ⟨fun ops => ?_, by decide, by rfl⟩
  refine rcInv_eq_true _ (rcInvP_run ops ⟨[], []⟩ ⟨?_, ?_⟩)
  · intro p hp
    simp at hp
  · intro k hk
    simp at hk
